import Mathlib

/-!
Verification development for the cat-feeder control program.

The embedding is shallow: each C++ function of interest is translated into a
Lean definition over explicit state records.

* `MarlinController.cpp` / `MarlinController.h` give the motion-protocol state
  machine (`MState`, `MC`, `handleResponse`, `extractPosition`, the motion
  commands and `setFanSpeed`).
* `main.cpp` gives the dispense sequencer (`Sys`, the nine `phaseN_..._state`
  functions, `dispenseStateMachine`, `dispenseFoodStart`, `abortOperation`)
  and the feed scheduler (`scheduledFeedCheck`, the daily-mode activation
  computations and the two mode-switch menu operations).

Strings received on the serial line are modelled as `List Char`; transmitted
g-code lines are modelled by the inductive `GLine`, one constructor per
literal command shape the program emits.  Doubles are modelled as `ℚ`
(the program performs only exact decimal arithmetic on them); C++ `std::stod`
is modelled by `stodQ` for the plain decimal forms that occur in position
reports (optional whitespace, optional sign, digits with an optional
fractional part; `stodQ` returns `none` exactly where `std::stod` would throw
for such inputs).  Persisting the snapshot (`saveStateToJSON`) is modelled as
an event counter `saves` since the claims only concern *that* a snapshot is
written.  Display, menus and GPIO are outside the modelled state.
-/

/-- Character class test matching C `isspace` (the whitespace skipped by
`std::stod`). -/
def isSpaceC (c : Char) : Bool :=
  c = ' ' || c = '\t' || c = '\n' || c = '\r' || c = '\x0b' || c = '\x0c'

/-- Decimal digit test. -/
def isDigitC (c : Char) : Bool :=
  48 ≤ c.toNat && c.toNat ≤ 57

/-- Numeric value of a list of decimal digits (most significant first). -/
def digitsVal (l : List Char) : Nat :=
  l.foldl (fun a c => a * 10 + (c.toNat - 48)) 0

/-- Model of `std::stod` restricted to plain decimal forms:
skip leading whitespace, optional sign, digits with an optional fractional
part; `none` when no digit can be consumed (where `std::stod` throws
`invalid_argument`). -/
def stodQ (s : List Char) : Option ℚ :=
  let s1 := s.dropWhile isSpaceC
  let sgn : ℚ × List Char :=
    match s1 with
    | '-' :: t => (-1, t)
    | '+' :: t => (1, t)
    | t => (1, t)
  let ip := sgn.2.takeWhile isDigitC
  let s3 := sgn.2.drop ip.length
  let fp : List Char :=
    match s3 with
    | '.' :: t => t.takeWhile isDigitC
    | _ => []
  if ip.length + fp.length = 0 then none
  else some (sgn.1 * ((digitsVal ip : ℚ) + (digitsVal fp : ℚ) / (10 : ℚ) ^ fp.length))

/-- `startsWithL pat s` is true when `pat` occurs at the start of `s`
(`std::string::find(pat) == 0`). -/
def startsWithL : List Char → List Char → Bool
  | [], _ => true
  | _ :: _, [] => false
  | a :: as, b :: bs => a = b && startsWithL as bs

/-- Index of the first occurrence of `pat` in `s` counting from `i`
(helper for `findSub`). -/
def findSubGo (pat : List Char) : List Char → Nat → Option Nat
  | [], i => if startsWithL pat [] then some i else none
  | c :: cs, i =>
      if startsWithL pat (c :: cs) then some i else findSubGo pat cs (i + 1)

/-- Model of `std::string::find(pat)`: index of the first occurrence of `pat`
in `s`, `none` for `npos`. -/
def findSub (pat s : List Char) : Option Nat :=
  findSubGo pat s 0

/-- Model of `std::string::find(c, start)`: first occurrence of character `c`
at or after index `start`. -/
def findCharFrom (c : Char) (s : List Char) (start : Nat) : Option Nat :=
  match findSub [c] (s.drop start) with
  | some i => some (start + i)
  | none => none

/-- Model of `std::string::substr(pos, len)` (C++ clamps `len` to the string
end, which `take` does for free). -/
def substrL (s : List Char) (pos len : Nat) : List Char :=
  (s.drop pos).take len

/-- The characters of an axis field: in `extractPosition` the parsed text for
a marker found at index `idx` is `substr(idx+2, find(' ', idx) - (idx+2))`;
when no space follows, C++ takes the rest of the string. -/
def fieldAfter (s : List Char) (idx : Nat) : List Char :=
  match findCharFrom ' ' s idx with
  | some sp => substrL s (idx + 2) (sp - (idx + 2))
  | none => substrL s (idx + 2) s.length

/-- The two-character marker `X:`. -/
def xColon : List Char := ['X', ':']

/-- The two-character marker `Z:`. -/
def zColon : List Char := ['Z', ':']

/-- The literal acknowledgment line `ok`. -/
def okL : List Char := ['o', 'k']

/-- `MarlinController::state` from `MarlinController.h`. -/
inductive MState where
  | disconnected
  | idle
  | homingZ
  | zMoveStarted
  | zMoveWaitForComplete1
  | zMoveWaitForComplete2
  | zMoveCompleted
  | homingX
  | xHomed
  | moveStarted
  | moveWaitForComplete
  | moveCompleted
  | getPosition
  deriving DecidableEq

/-- One transmitted g-code line; each constructor corresponds to one literal
command shape the program writes to the serial port. -/
inductive GLine where
  | g90
  | g28x
  | g28z
  | g0x (pos speed : ℚ)
  | g0z (pos : ℚ)
  | m400
  | m106 (fanNumber pwmValue : ℤ)
  | m112
  deriving DecidableEq

/-- The `MarlinController` object state: protocol state, best-known position,
the quirk flag `burnExtraOK`, connection status (`marlinPort >= 0`), and the
ordered list of g-code lines written so far. -/
structure MC where
  marlinState : MState
  xPos : ℚ
  zPos : ℚ
  burnExtraOK : Bool
  connected : Bool
  sent : List GLine
  deriving DecidableEq

/-- `MarlinController::sendGCode`: writes the line when connected, logs an
error and does nothing otherwise. -/
def sendGCode (mc : MC) (g : GLine) : MC :=
  if mc.connected then { mc with sent := mc.sent ++ [g] } else mc

/-- `MarlinController::homeX`. -/
def homeX (mc : MC) : MC :=
  if mc.connected then sendGCode { mc with marlinState := .homingX } .g28x else mc

/-- `MarlinController::homeZ`. -/
def homeZ (mc : MC) : MC :=
  if mc.connected then sendGCode { mc with marlinState := .homingZ } .g28z else mc

/-- `MarlinController::moveXTo`: sets `moveStarted`, sends the move, records
the commanded position as a rough estimate. -/
def moveXTo (mc : MC) (position speed : ℚ) : MC :=
  if mc.connected then
    { sendGCode { mc with marlinState := .moveStarted } (.g0x position speed) with
      xPos := position }
  else mc

/-- `MarlinController::moveZTo`: sets `zMoveStarted`, sends the move at fixed
feed rate 300, records the commanded position. -/
def moveZTo (mc : MC) (position : ℚ) : MC :=
  if mc.connected then
    { sendGCode { mc with marlinState := .zMoveStarted } (.g0z position) with
      zPos := position }
  else mc

/-- `MarlinController::setState`. -/
def setState (mc : MC) (newState : MState) : MC :=
  { mc with marlinState := newState }

/-- `MarlinController::setFanSpeed`: clamp the percentage into 0..100, convert
to a PWM value by integer division, send `M106 P<fan> S<pwm>`. -/
def setFanSpeed (mc : MC) (fanNumber speedPercent : ℤ) : MC :=
  let p1 := if speedPercent < 0 then 0 else speedPercent
  let p2 := if p1 > 100 then 100 else p1
  sendGCode mc (.m106 fanNumber (p2 * 255 / 100))

/-- `MarlinController::disconnect` (final state once the port is closed). -/
def disconnectOp (mc : MC) : MC :=
  { mc with connected := false, marlinState := .disconnected }

/-- `MarlinController::extractPosition`: find `X:` and `Z:`, parse the float
after each marker up to the next space.  The two assignments happen in order
inside one `try` block: a parse failure on the X field updates neither axis,
a parse failure on the Z field after a successful X parse leaves `zPos`
unchanged with `xPos` already overwritten. -/
def extractPosition (response : List Char) (xPos zPos : ℚ) : ℚ × ℚ :=
  match findSub xColon response, findSub zColon response with
  | some xs, some zs =>
      (match stodQ (fieldAfter response xs) with
       | none => (xPos, zPos)
       | some xv =>
           match stodQ (fieldAfter response zs) with
           | none => (xv, zPos)
           | some zv => (xv, zv))
  | _, _ => (xPos, zPos)

/-- `MarlinController::handleResponse`: position reports (lines starting with
`X:`) update only the stored position; otherwise the protocol state advances
on the literal line `ok` according to the switch over `marlinState`. -/
def handleResponse (mc : MC) (response : List Char) : MC :=
  if startsWithL xColon response then
    let p := extractPosition response mc.xPos mc.zPos
    { mc with xPos := p.1, zPos := p.2 }
  else
    match mc.marlinState with
    | .homingX =>
        if response = okL then { mc with marlinState := .xHomed } else mc
    | .homingZ =>
        if response = okL then { mc with marlinState := .idle } else mc
    | .zMoveStarted =>
        if response = okL then
          let mc1 := sendGCode mc .m400
          { mc1 with marlinState := .zMoveWaitForComplete1 }
        else mc
    | .zMoveWaitForComplete1 =>
        if response = okL then
          if mc.burnExtraOK then
            { mc with burnExtraOK := false, marlinState := .zMoveWaitForComplete2 }
          else
            { mc with marlinState := .idle }
        else mc
    | .zMoveWaitForComplete2 =>
        if response = okL then { mc with marlinState := .idle } else mc
    | .moveStarted =>
        if response = okL then
          let mc1 := sendGCode mc .m400
          { mc1 with marlinState := .moveWaitForComplete }
        else mc
    | .moveWaitForComplete =>
        if response = okL then { mc with marlinState := .moveCompleted } else mc
    | .getPosition =>
        if response = okL then { mc with marlinState := .idle } else mc
    | _ => mc

/-- The `state` enumeration of `main.cpp` (the dispense phase, plus startup
and can-loading states). -/
inductive MachineState where
  | idle
  | phase1_x_homing
  | phase2_x_to_start
  | phase3_tab_lifting
  | phase4_lid_peeling
  | phase5_x_rehoming
  | phase6_z_lift_to_eject
  | phase7_x_eject
  | phase8_x_rehoming_final
  | phase9_z_next_can
  | initial_z_homing
  | initial_z_offsetting
  | loading_first
  | canLoad_step_1
  | canLoad_step_2
  deriving DecidableEq

/-- The `ScheduleMode` enumeration of `main.cpp`. -/
inductive ScheduleMode where
  | INTERVAL_MODE
  | DAILY_MODE
  deriving DecidableEq

/-- `canToEject` constant of `main.cpp` (Z lift for ejecting an opened can). -/
def canToEject : ℚ := 21

/-- `nextCan` constant of `main.cpp` (Z lift bringing the next can level). -/
def nextCan : ℚ := 37

/-- The global program state of `main.cpp` used by the sequencer and the
scheduler: the machine state, the Marlin controller, the nine per-phase
`static bool started` latches, and the schedule fields.  `saves` counts the
calls to `saveStateToJSON` (the persisted snapshot content is exactly the
other fields). -/
structure Sys where
  machineState : MachineState
  marlin : MC
  started1 : Bool
  started2 : Bool
  started3 : Bool
  started4 : Bool
  started5 : Bool
  started6 : Bool
  started7 : Bool
  started8 : Bool
  started9 : Bool
  cansLoaded : ℤ
  operationRunning : Bool
  feedGap : ℚ
  feedTime : ℤ
  scheduleMode : ScheduleMode
  startupSequenceComplete : Bool
  saves : Nat
  deriving DecidableEq

/-- `saveStateToJSON`, modelled as the persistence event counter. -/
def saveState (s : Sys) : Sys :=
  { s with saves := s.saves + 1 }

/-- `phase1_x_homing_state`: entry homes X and records the phase; completion
fires when the Marlin state is `xHomed`. -/
def phase1_x_homing_state (reset : Bool) (s : Sys) : Sys :=
  if reset then { s with started1 := false }
  else if !s.started1 then
    saveState { s with started1 := true, marlin := homeX s.marlin,
                       machineState := .phase1_x_homing }
  else if s.marlin.marlinState = .xHomed then
    saveState { s with machineState := .phase2_x_to_start, started1 := false }
  else s

/-- `phase2_x_to_start_state`: entry sets `moveStarted` and moves X to 165 at
feed 600; completion fires on `moveCompleted`. -/
def phase2_x_to_start_state (reset : Bool) (s : Sys) : Sys :=
  if reset then { s with started2 := false }
  else if !s.started2 then
    saveState { s with started2 := true,
                       marlin := moveXTo (setState s.marlin .moveStarted) 165 600 }
  else if s.marlin.marlinState = .moveCompleted then
    saveState { s with machineState := .phase3_tab_lifting, started2 := false }
  else s

/-- `phase3_tab_lifting_state`: entry moves X to 248 at feed 150; completion
fires on `moveCompleted`. -/
def phase3_tab_lifting_state (reset : Bool) (s : Sys) : Sys :=
  if reset then { s with started3 := false }
  else if !s.started3 then
    saveState { s with started3 := true,
                       marlin := moveXTo (setState s.marlin .moveStarted) 248 150 }
  else if s.marlin.marlinState = .moveCompleted then
    saveState { s with machineState := .phase4_lid_peeling, started3 := false }
  else s

/-- `phase4_lid_peeling_state`: entry moves X to 25 at feed 150; completion
fires on `moveCompleted`. -/
def phase4_lid_peeling_state (reset : Bool) (s : Sys) : Sys :=
  if reset then { s with started4 := false }
  else if !s.started4 then
    saveState { s with started4 := true,
                       marlin := moveXTo (setState s.marlin .moveStarted) 25 150 }
  else if s.marlin.marlinState = .moveCompleted then
    saveState { s with machineState := .phase5_x_rehoming, started4 := false }
  else s

/-- `phase5_x_rehoming_state`: entry re-homes X; completion fires on
`xHomed`. -/
def phase5_x_rehoming_state (reset : Bool) (s : Sys) : Sys :=
  if reset then { s with started5 := false }
  else if !s.started5 then
    saveState { s with started5 := true, marlin := homeX s.marlin }
  else if s.marlin.marlinState = .xHomed then
    saveState { s with machineState := .phase6_z_lift_to_eject, started5 := false }
  else s

/-- `phase6_z_lift_to_eject_state`: entry moves Z up by `canToEject` from the
current rough position; completion fires when the Marlin state is `idle`. -/
def phase6_z_lift_to_eject_state (reset : Bool) (s : Sys) : Sys :=
  if reset then { s with started6 := false }
  else if !s.started6 then
    saveState { s with started6 := true,
                       marlin := moveZTo s.marlin (s.marlin.zPos + canToEject) }
  else if s.marlin.marlinState = .idle then
    saveState { s with machineState := .phase7_x_eject, started6 := false }
  else s

/-- `phase7_x_eject_state`: entry moves X to 248 at feed 600; completion fires
on `moveCompleted`. -/
def phase7_x_eject_state (reset : Bool) (s : Sys) : Sys :=
  if reset then { s with started7 := false }
  else if !s.started7 then
    saveState { s with started7 := true, marlin := moveXTo s.marlin 248 600 }
  else if s.marlin.marlinState = .moveCompleted then
    saveState { s with machineState := .phase8_x_rehoming_final, started7 := false }
  else s

/-- `phase8_x_rehoming_final_state`: entry sets `moveStarted` then homes X
(which overrides the state to `homingX`); completion fires on `xHomed`. -/
def phase8_x_rehoming_final_state (reset : Bool) (s : Sys) : Sys :=
  if reset then { s with started8 := false }
  else if !s.started8 then
    saveState { s with started8 := true,
                       marlin := homeX (setState s.marlin .moveStarted) }
  else if s.marlin.marlinState = .xHomed then
    saveState { s with machineState := .phase9_z_next_can, started8 := false }
  else s

/-- `phase9_z_next_can_state`: entry moves Z up by `nextCan`; completion fires
when the Marlin state is `idle`, decrements `cansLoaded` and returns the
machine state to `idle`. -/
def phase9_z_next_can_state (reset : Bool) (s : Sys) : Sys :=
  if reset then { s with started9 := false }
  else if !s.started9 then
    saveState { s with started9 := true,
                       marlin := moveZTo s.marlin (s.marlin.zPos + nextCan) }
  else if s.marlin.marlinState = .idle then
    saveState { s with machineState := .idle, started9 := false,
                       cansLoaded := s.cansLoaded - 1 }
  else s

/-- `resetAllPhases`: calls every phase function with `reset = true`. -/
def resetAllPhases (s : Sys) : Sys :=
  phase9_z_next_can_state true
    (phase8_x_rehoming_final_state true
      (phase7_x_eject_state true
        (phase6_z_lift_to_eject_state true
          (phase5_x_rehoming_state true
            (phase4_lid_peeling_state true
              (phase3_tab_lifting_state true
                (phase2_x_to_start_state true
                  (phase1_x_homing_state true s))))))))

/-- `dispenseStateMachine`: one polling pass, dispatching on `machineState`;
`idle` and the states without a switch case do nothing. -/
def dispenseStateMachine (s : Sys) : Sys :=
  match s.machineState with
  | .phase1_x_homing => phase1_x_homing_state false s
  | .phase2_x_to_start => phase2_x_to_start_state false s
  | .phase3_tab_lifting => phase3_tab_lifting_state false s
  | .phase4_lid_peeling => phase4_lid_peeling_state false s
  | .phase5_x_rehoming => phase5_x_rehoming_state false s
  | .phase6_z_lift_to_eject => phase6_z_lift_to_eject_state false s
  | .phase7_x_eject => phase7_x_eject_state false s
  | .phase8_x_rehoming_final => phase8_x_rehoming_final_state false s
  | .phase9_z_next_can => phase9_z_next_can_state false s
  | _ => s

/-- `dispenseFoodStart`: rejected when no cans are loaded; otherwise set
`operationRunning`, turn both fans to 100%, reset all phase latches, reset the
machine state, persist, and run phase 1's entry. -/
def dispenseFoodStart (s : Sys) : Sys :=
  if s.cansLoaded < 1 then s
  else
    let s1 := { s with operationRunning := true }
    let s2 := { s1 with marlin := setFanSpeed (setFanSpeed s1.marlin 0 100) 1 100 }
    let s3 := resetAllPhases s2
    let s4 := { s3 with machineState := .idle }
    phase1_x_homing_state false (saveState s4)

/-- `abortOperation`: while an operation is running, send `M112`, zero both
fans, clear `operationRunning`, reset all phase latches, force machine state
and Marlin state to idle, and persist; otherwise do nothing. -/
def abortOperation (s : Sys) : Sys :=
  if s.operationRunning then
    let m1 := sendGCode s.marlin .m112
    let m2 := setFanSpeed (setFanSpeed m1 0 0) 1 0
    let s1 := { s with marlin := m2, operationRunning := false }
    let s2 := resetAllPhases s1
    let s3 := { s2 with machineState := .idle }
    let s4 := { s3 with marlin := setState s3.marlin .idle }
    saveState s4
  else s

/-- Truncation toward zero, the C++ conversion from `double` to an integer
type (`Int.tdiv` is division truncating toward zero, so `num tdiv den` is the
truncation of the rational). -/
def truncQ (q : ℚ) : ℤ :=
  q.num.tdiv q.den

/-- The new `feedTime` computed by the scheduled-feed trigger: `feedTime +
24*3600` in daily mode, `now + feedGap*3600` (converted to `time_t`) in
interval mode. -/
def advanceFeedTime (s : Sys) (now : ℤ) : ℤ :=
  match s.scheduleMode with
  | .DAILY_MODE => s.feedTime + 24 * 3600
  | .INTERVAL_MODE => truncQ ((now : ℚ) + s.feedGap * 3600)

/-- The scheduled-feed check of the control loop in `main`: when no operation
runs, the machine is idle, a feed time is set, the startup sequence has
completed and the time has arrived, advance `feedTime`, persist, and start the
dispense. -/
def scheduledFeedCheck (s : Sys) (now : ℤ) : Sys :=
  if s.operationRunning = false ∧ s.machineState = MachineState.idle ∧
      0 < s.feedTime ∧ s.startupSequenceComplete = true then
    if s.feedTime ≤ now then
      dispenseFoodStart (saveState { s with feedTime := advanceFeedTime s now })
    else s
  else s

/-- Today's feed target computed by setting `tm_hour`/`tm_min` on the current
local time and re-encoding: the day's start plus `h` hours and `m` minutes. -/
def todayFeedTimeOf (dayStart h m : ℤ) : ℤ :=
  dayStart + h * 3600 + m * 60

/-- The daily-mode auto-activation in `main` (run at startup when daily mode
is loaded with no feed time set): `now` is `dayStart + sod` with `sod` the
second of the day; a target strictly in the past moves to tomorrow. -/
def dailyAutoActivate (dayStart sod h m : ℤ) : ℤ :=
  let now := dayStart + sod
  let t := todayFeedTimeOf dayStart h m
  if t < now then t + 24 * 3600 else t

/-- The daily-mode activation in `buttonLeftPressed` when leaving the settings
menu in daily mode; same computation as the startup auto-activation. -/
def dailyMenuActivate (dayStart sod h m : ℤ) : ℤ :=
  let now := dayStart + sod
  let t := todayFeedTimeOf dayStart h m
  if t < now then t + 24 * 3600 else t

/-- The `Reset INT` command (`buttonOkPressed`, commands menu, selection 0):
switch to interval mode, set `feedTime` to `now + feedGap` hours, persist. -/
def resetIntervalCommand (s : Sys) (now : ℤ) : Sys :=
  saveState { s with scheduleMode := .INTERVAL_MODE,
                     feedTime := truncQ ((now : ℚ) + s.feedGap * 3600) }

/-- The schedule-mode selection (`buttonOkPressed`, schedule-mode menu): set
the mode from the menu selection and persist; `feedTime` is not touched. -/
def scheduleModeMenuSelect (s : Sys) (menuSelection : ℤ) : Sys :=
  saveState { s with scheduleMode :=
    if menuSelection = 0 then ScheduleMode.INTERVAL_MODE else ScheduleMode.DAILY_MODE }

/-- An acknowledgment line is not a position report. -/
theorem startsWithL_xColon_okL : startsWithL xColon okL = false := by decide

/-- A connected controller in protocol-idle state with nothing sent yet (the
state right after the constructor's `G90` handshake is acknowledged and
consumed, with the transcript cleared). -/
def mcIdle : MC :=
  { marlinState := .idle, xPos := 0, zPos := 0, burnExtraOK := false,
    connected := true, sent := [] }

/-- A connected controller awaiting the first Z-move completion ack with the
quirk flag set. -/
def mcZ1 : MC :=
  { marlinState := .zMoveWaitForComplete1, xPos := 1, zPos := 2,
    burnExtraOK := true, connected := true, sent := [] }

/-- C4: from `ZMoveAwaitComplete1` with `extraAckPending` set, the first `ok`
clears the flag and moves to `ZMoveAwaitComplete2` and the next `ok` moves to
`Idle` (exactly one extra ack is consumed); with the flag clear a single `ok`
moves directly to `Idle`. -/
theorem c4_extraAck_consumed_exactly_once (mc : MC)
    (h1 : mc.marlinState = MState.zMoveWaitForComplete1) :
    (mc.burnExtraOK = true →
      (handleResponse mc okL).marlinState = MState.zMoveWaitForComplete2 ∧
      (handleResponse mc okL).burnExtraOK = false ∧
      (handleResponse (handleResponse mc okL) okL).marlinState = MState.idle) ∧
    (mc.burnExtraOK = false →
      (handleResponse mc okL).marlinState = MState.idle ∧
      (handleResponse mc okL).burnExtraOK = false) := by
  rcases mc with ⟨st, x, z, burn, conn, sentL⟩
  simp only [MC.marlinState] at h1
  subst h1
  constructor <;> intro h2 <;>
    simp only [MC.burnExtraOK] at h2 <;> subst h2 <;>
    simp [handleResponse, startsWithL_xColon_okL]

/-- C4 witness: the theorem evaluated on a concrete controller. -/
theorem c4_witness :
    (handleResponse mcZ1 okL).marlinState = MState.zMoveWaitForComplete2 ∧
    (handleResponse (handleResponse mcZ1 okL) okL).marlinState = MState.idle := by
  have h := (c4_extraAck_consumed_exactly_once mcZ1 rfl).1 rfl
  exact ⟨h.1, h.2.2⟩

/-- C6 counterexample: with hour 6, minute 30 and the current time exactly
06:30:00, the target equals the current time (so the claim's "less than or
equal" condition holds) yet the code schedules it for today, not 24 hours
later. -/
theorem c6_counterexample :
    todayFeedTimeOf 0 6 30 ≤ 0 + 23400 ∧
    dailyAutoActivate 0 23400 6 30 = 23400 ∧
    dailyAutoActivate 0 23400 6 30 ≠ 23400 + 24 * 3600 := by
  decide

/-- C6 amended: past-due recovery moves the target to tomorrow exactly when
today's target is STRICTLY earlier than the current time (a target equal to
the current time stays today); both program sites compute the same function,
and the two spec examples hold (`now` = 07:00 gives 06:30 tomorrow, `now` =
06:00 gives 06:30 today). -/
theorem c6_pastDueRecovery_strict (dayStart sod h m : ℤ) :
    dailyMenuActivate dayStart sod h m = dailyAutoActivate dayStart sod h m ∧
    (todayFeedTimeOf dayStart h m < dayStart + sod →
      dailyAutoActivate dayStart sod h m = todayFeedTimeOf dayStart h m + 24 * 3600) ∧
    (dayStart + sod ≤ todayFeedTimeOf dayStart h m →
      dailyAutoActivate dayStart sod h m = todayFeedTimeOf dayStart h m) ∧
    dailyAutoActivate dayStart 25200 6 30 = todayFeedTimeOf dayStart 6 30 + 24 * 3600 ∧
    dailyAutoActivate dayStart 21600 6 30 = todayFeedTimeOf dayStart 6 30 := by
  refine ⟨rfl, ?_, ?_, ?_, ?_⟩ <;>
    simp only [dailyAutoActivate, todayFeedTimeOf] <;>
    first
      | (intro hlt; split_ifs <;> omega)
      | (split_ifs <;> omega)

/-- C6 witness: the amended theorem evaluated at the spec's past-due example. -/
theorem c6_witness :
    dailyAutoActivate 0 25200 6 30 = todayFeedTimeOf 0 6 30 + 24 * 3600 :=
  (c6_pastDueRecovery_strict 0 25200 6 30).2.1 (by decide)

/-- A system state sitting idle in daily mode with a feed time already set,
used to exercise the schedule-mode menu switch. -/
def sysC7 : Sys :=
  { machineState := .idle, marlin := mcIdle,
    started1 := false, started2 := false, started3 := false, started4 := false,
    started5 := false, started6 := false, started7 := false, started8 := false,
    started9 := false, cansLoaded := 3, operationRunning := false,
    feedGap := 8, feedTime := 42, scheduleMode := .DAILY_MODE,
    startupSequenceComplete := true, saves := 0 }

/-- C7 counterexample: selecting Interval in the schedule-mode menu at time
1000 switches the mode but leaves `feedTime` at its old value 42 instead of
recomputing `now + feedGap` hours = 29800. -/
theorem c7_counterexample :
    (scheduleModeMenuSelect sysC7 0).scheduleMode = ScheduleMode.INTERVAL_MODE ∧
    (scheduleModeMenuSelect sysC7 0).feedTime = 42 ∧
    truncQ ((1000 : ℚ) + sysC7.feedGap * 3600) = 29800 ∧ (42 : ℤ) ≠ 29800 := by
  have h : (1000 : ℚ) + sysC7.feedGap * 3600 = 29800 := by
    norm_num [sysC7]
  exact ⟨by decide, by decide, by rw [h]; decide, by decide⟩

/-- C7 amended: only the `Reset INT` command recomputes `feedTime = now +
feedGap` hours when switching to Interval; the schedule-mode menu switch sets
the mode and persists but leaves `feedTime` unchanged. -/
theorem c7_interval_switch_recompute (s : Sys) (now sel : ℤ) :
    (resetIntervalCommand s now).scheduleMode = ScheduleMode.INTERVAL_MODE ∧
    (resetIntervalCommand s now).feedTime = truncQ ((now : ℚ) + s.feedGap * 3600) ∧
    (resetIntervalCommand s now).saves = s.saves + 1 ∧
    (scheduleModeMenuSelect s sel).feedTime = s.feedTime ∧
    (scheduleModeMenuSelect s 0).scheduleMode = ScheduleMode.INTERVAL_MODE ∧
    (scheduleModeMenuSelect s 1).scheduleMode = ScheduleMode.DAILY_MODE ∧
    (scheduleModeMenuSelect s sel).saves = s.saves + 1 := by
  refine ⟨rfl, rfl, rfl, rfl, ?_, ?_, rfl⟩ <;>
    simp [scheduleModeMenuSelect, saveState]

/-- A controller used to evaluate the fan-duty conversion. -/
def mcFan : MC :=
  { marlinState := .moveCompleted, xPos := 165, zPos := 0, burnExtraOK := false,
    connected := true, sent := [] }

/-- C8 counterexample: `setFanSpeed(0, 50)` emits PWM duty 127 (truncating
integer division), not the claimed `round(50*255/100) = 128`. -/
theorem c8_counterexample :
    (setFanSpeed mcFan 0 50).sent = [GLine.m106 0 127] ∧
    round ((50 * 255 : ℚ) / 100) = 128 ∧ (127 : ℤ) ≠ 128 := by
  refine ⟨by decide, ?_, by decide⟩
  norm_num [round_eq]

/-- C8 amended: on a connected controller, `setFanSpeed` clamps the percent
into 0..100 and emits `M106 P<fan> S<duty>` with `duty = (percent*255)/100`
by truncating integer division (so 50 maps to 127), leaving the protocol
state unchanged. -/
theorem c8_fanDuty_truncated (mc : MC) (fanNumber speedPercent : ℤ)
    (h : mc.connected = true) :
    setFanSpeed mc fanNumber speedPercent =
      { mc with sent := mc.sent ++ [GLine.m106 fanNumber
          ((if speedPercent < 0 then 0
            else if speedPercent > 100 then 100 else speedPercent) * 255 / 100)] } ∧
    (setFanSpeed mc fanNumber speedPercent).marlinState = mc.marlinState := by
  have hmain : setFanSpeed mc fanNumber speedPercent =
      { mc with sent := mc.sent ++ [GLine.m106 fanNumber
          ((if speedPercent < 0 then 0
            else if speedPercent > 100 then 100 else speedPercent) * 255 / 100)] } := by
    simp only [setFanSpeed, sendGCode, h, if_true]
    by_cases h1 : speedPercent < 0
    · simp [h1]
    · by_cases h2 : speedPercent > 100 <;> simp [h1, h2]
  exact ⟨hmain, by rw [hmain]⟩

/-- C8 witness: the amended theorem evaluated at fan 0, percent 50. -/
theorem c8_witness :
    setFanSpeed mcFan 0 50 =
      { mcFan with sent := [GLine.m106 0 127] } := by
  have h := (c8_fanDuty_truncated mcFan 0 50 rfl).1
  simpa using h

/-- The acknowledgment dispatch table transcribed from the specification's
bullet list in section 4.2: on the literal acknowledgment token, each listed
state performs its listed transition (sending `M400` where stated, consuming
the pending extra ack in `ZMoveAwaitComplete1`), and any other state/line
combination is ignored. -/
def specAckDispatch (mc : MC) (response : List Char) : MC :=
  if response = okL then
    match mc.marlinState with
    | .homingX => { mc with marlinState := .xHomed }
    | .homingZ => { mc with marlinState := .idle }
    | .zMoveStarted =>
        let mc1 := sendGCode mc .m400
        { mc1 with marlinState := .zMoveWaitForComplete1 }
    | .zMoveWaitForComplete1 =>
        if mc.burnExtraOK then
          { mc with burnExtraOK := false, marlinState := .zMoveWaitForComplete2 }
        else { mc with marlinState := .idle }
    | .zMoveWaitForComplete2 => { mc with marlinState := .idle }
    | .moveStarted =>
        let mc1 := sendGCode mc .m400
        { mc1 with marlinState := .moveWaitForComplete }
    | .moveWaitForComplete => { mc with marlinState := .moveCompleted }
    | .getPosition => { mc with marlinState := .idle }
    | _ => mc
  else mc

/-- C1: `handleResponse` equals the specification's dispatch table: a line
starting with `X:` only overwrites the position (protocol state, quirk flag
and transcript untouched), and every other line is dispatched by
`specAckDispatch` — the exact per-state transitions on `ok` and no transition
for every other state/line combination. -/
theorem c1_handleResponse_matches_spec_dispatch (mc : MC) (response : List Char) :
    handleResponse mc response =
      if startsWithL xColon response then
        { mc with xPos := (extractPosition response mc.xPos mc.zPos).1,
                  zPos := (extractPosition response mc.xPos mc.zPos).2 }
      else specAckDispatch mc response := by
  by_cases hx : startsWithL xColon response
  · simp [handleResponse, hx]
  · rcases mc with ⟨st, x, z, burn, conn, sentL⟩
    cases st <;> by_cases hok : response = okL <;>
      simp [handleResponse, specAckDispatch, hx, hok]

/-- A position-report line whose X field parses as 1.5 and whose Z field is
unparseable text. -/
def lineC9 : List Char := ['X', ':', '1', '.', '5', ' ', 'Z', ':', 'a', 'b', 'c']

/-- A controller holding position X=5, Z=7 before the report arrives. -/
def mcC9 : MC :=
  { marlinState := .idle, xPos := 5, zPos := 7, burnExtraOK := false,
    connected := true, sent := [] }

/-- C9 counterexample: on the line `X:1.5 Z:abc` (which begins with the
position-report marker), the X axis is overwritten with 1.5 while the Z axis
keeps its old value — one axis updated, the other not. -/
theorem c9_counterexample :
    startsWithL xColon lineC9 = true ∧
    (handleResponse mcC9 lineC9).zPos = mcC9.zPos ∧
    (handleResponse mcC9 lineC9).xPos ≠ mcC9.xPos := by
  have h1 : (handleResponse mcC9 lineC9).xPos = 1 * ((1 : ℚ) + 5 / 10 ^ 1) := rfl
  refine ⟨by decide, rfl, ?_⟩
  rw [h1]
  norm_num [mcC9]

/-- If `pat` occurs at the head of `s` then `find` locates it at index 0. -/
theorem findSub_of_startsWith (pat s : List Char) (h : startsWithL pat s = true) :
    findSub pat s = some 0 := by
  cases s <;> simp [findSub, findSubGo, h]

/-- C9 amended: a line beginning with `X:` never changes the protocol state,
the quirk flag or the transcript, and the position update is: both axes
overwritten when both floats parse; neither axis changed when the `Z:` marker
is absent or the X float fails to parse; and — the non-atomic case — only the
X axis overwritten when the X float parses but the Z float fails to parse. -/
theorem c9_position_update_cases (mc : MC) (response : List Char)
    (hx : startsWithL xColon response = true) :
    (handleResponse mc response).marlinState = mc.marlinState ∧
    (handleResponse mc response).sent = mc.sent ∧
    (handleResponse mc response).burnExtraOK = mc.burnExtraOK ∧
    (findSub zColon response = none →
        (handleResponse mc response).xPos = mc.xPos ∧
        (handleResponse mc response).zPos = mc.zPos) ∧
    (∀ zs, findSub zColon response = some zs →
      (stodQ (fieldAfter response 0) = none →
          (handleResponse mc response).xPos = mc.xPos ∧
          (handleResponse mc response).zPos = mc.zPos) ∧
      (∀ xv, stodQ (fieldAfter response 0) = some xv →
        (stodQ (fieldAfter response zs) = none →
            (handleResponse mc response).xPos = xv ∧
            (handleResponse mc response).zPos = mc.zPos) ∧
        (∀ zv, stodQ (fieldAfter response zs) = some zv →
            (handleResponse mc response).xPos = xv ∧
            (handleResponse mc response).zPos = zv))) := by
  have h0 : findSub xColon response = some 0 := findSub_of_startsWith _ _ hx
  refine ⟨?_, ?_, ?_, ?_, ?_⟩
  · simp [handleResponse, hx]
  · simp [handleResponse, hx]
  · simp [handleResponse, hx]
  · intro hz
    simp [handleResponse, hx, extractPosition, h0, hz]
  · intro zs hzs
    refine ⟨?_, ?_⟩
    · intro hxn
      simp [handleResponse, hx, extractPosition, h0, hzs, hxn]
    · intro xv hxv
      refine ⟨?_, ?_⟩
      · intro hzn
        simp [handleResponse, hx, extractPosition, h0, hzs, hxv, hzn]
      · intro zv hzv
        simp [handleResponse, hx, extractPosition, h0, hzs, hxv, hzv]

/-- Every phase function with `reset = true` only clears its latch, so
`resetAllPhases` clears all nine latches and changes nothing else. -/
theorem resetAllPhases_eq (s : Sys) :
    resetAllPhases s =
      { s with started1 := false, started2 := false, started3 := false,
               started4 := false, started5 := false, started6 := false,
               started7 := false, started8 := false, started9 := false } :=
  rfl

/-- `saveState` does not change `feedTime`. -/
theorem saveState_feedTime (s : Sys) : (saveState s).feedTime = s.feedTime :=
  rfl

/-- The phase-1 function never changes `feedTime`. -/
theorem phase1_feedTime (r : Bool) (s : Sys) :
    (phase1_x_homing_state r s).feedTime = s.feedTime := by
  unfold phase1_x_homing_state
  split_ifs <;> rfl

/-- `dispenseFoodStart` never changes `feedTime` (the advance happens before
the call in the trigger check). -/
theorem dispenseFoodStart_feedTime (s : Sys) :
    (dispenseFoodStart s).feedTime = s.feedTime := by
  unfold dispenseFoodStart
  split_ifs with h
  · rfl
  · rw [phase1_feedTime]
    rfl

/-- For a nonnegative rational, truncation toward zero agrees with the
floor. -/
theorem truncQ_eq_floor (q : ℚ) (h : 0 ≤ q) : truncQ q = ⌊q⌋ := by
  rw [truncQ, Rat.floor_def, Int.tdiv_eq_ediv (Rat.num_nonneg.2 h) (by positivity)]

/-- C5: when the sequencer is idle, startup has finished, a feed time is set
and it has arrived, the pass advances `feedTime` first (daily: old value plus
24 hours; interval: now plus `feedGap` hours), persists, and only then starts
the dispense — in particular the resulting state still carries the advanced
`feedTime`, and in interval mode with a positive gap the new `feedTime` lies
strictly in the future, so the same pass condition cannot re-fire. -/
theorem c5_trigger_advances_before_dispense (s : Sys) (now : ℤ)
    (h1 : s.operationRunning = false) (h2 : s.machineState = MachineState.idle)
    (h3 : 0 < s.feedTime) (h4 : s.startupSequenceComplete = true)
    (h5 : s.feedTime ≤ now) :
    scheduledFeedCheck s now =
      dispenseFoodStart (saveState { s with feedTime := advanceFeedTime s now }) ∧
    (scheduledFeedCheck s now).feedTime = advanceFeedTime s now ∧
    (s.scheduleMode = ScheduleMode.DAILY_MODE →
        advanceFeedTime s now = s.feedTime + 24 * 3600) ∧
    (s.scheduleMode = ScheduleMode.INTERVAL_MODE →
        advanceFeedTime s now = truncQ ((now : ℚ) + s.feedGap * 3600) ∧
        (1 ≤ s.feedGap → now < advanceFeedTime s now)) := by
  have hmain : scheduledFeedCheck s now =
      dispenseFoodStart (saveState { s with feedTime := advanceFeedTime s now }) := by
    unfold scheduledFeedCheck
    rw [if_pos ⟨h1, h2, h3, h4⟩, if_pos h5]
  refine ⟨hmain, ?_, ?_, ?_⟩
  · rw [hmain, dispenseFoodStart_feedTime, saveState_feedTime]
  · intro hd
    simp [advanceFeedTime, hd]
  · intro hi
    refine ⟨by simp [advanceFeedTime, hi], ?_⟩
    intro hg
    have hnow : 0 < now := lt_of_lt_of_le h3 h5
    have hq : (0 : ℚ) ≤ (now : ℚ) + s.feedGap * 3600 := by
      have hgap : (3600 : ℚ) ≤ s.feedGap * 3600 := by nlinarith
      have : (0 : ℚ) < (now : ℚ) := by exact_mod_cast hnow
      linarith
    simp only [advanceFeedTime, hi]
    rw [truncQ_eq_floor _ hq]
    rw [Int.lt_iff_add_one_le, Int.le_floor]
    have hgap : (3600 : ℚ) ≤ s.feedGap * 3600 := by nlinarith
    push_cast
    linarith

/-- C5 witness: the theorem evaluated on a concrete idle daily-mode state at
time 200 with the feed due at 42. -/
theorem c5_witness :
    advanceFeedTime sysC7 200 = sysC7.feedTime + 24 * 3600 :=
  (c5_trigger_advances_before_dispense sysC7 200 rfl rfl (by decide) rfl
    (by decide)).2.2.1 rfl

/-- The system state right after startup issues the initial Z homing: no
operation is running, yet the machine state is not idle.  It is reached on
every run (in `main`, `machineState = initial_z_homing` is set and `homeZ`
issued before the control loop starts). -/
def sysC3 : Sys :=
  { machineState := .initial_z_homing,
    marlin := { marlinState := .homingZ, xPos := 0, zPos := 0,
                burnExtraOK := false, connected := true, sent := [GLine.g28z] },
    started1 := false, started2 := false, started3 := false, started4 := false,
    started5 := false, started6 := false, started7 := false, started8 := false,
    started9 := false, cansLoaded := 2, operationRunning := false,
    feedGap := 8, feedTime := 0, scheduleMode := .INTERVAL_MODE,
    startupSequenceComplete := false, saves := 0 }

/-- C3 counterexample: calling abort while no sequence is active on the
startup state leaves the system unchanged — in particular not in machine
state `idle` and not in protocol state `idle`, refuting "always leaves the
system in dispensePhase = Idle and protocol state = Idle". -/
theorem c3_counterexample :
    sysC3.operationRunning = false ∧
    abortOperation sysC3 = sysC3 ∧
    (abortOperation sysC3).machineState ≠ MachineState.idle ∧
    (abortOperation sysC3).marlin.marlinState ≠ MState.idle := by
  decide

/-- A mid-sequence state (phase 3 underway) with the operation running, used
to exercise an active abort. -/
def sysC3run : Sys :=
  { machineState := .phase3_tab_lifting,
    marlin := { marlinState := .moveStarted, xPos := 248, zPos := 0,
                burnExtraOK := false, connected := true, sent := [] },
    started1 := false, started2 := false, started3 := true, started4 := false,
    started5 := false, started6 := false, started7 := false, started8 := false,
    started9 := false, cansLoaded := 2, operationRunning := true,
    feedGap := 8, feedTime := 0, scheduleMode := .INTERVAL_MODE,
    startupSequenceComplete := true, saves := 0 }

/-- C3 amended: abort while a sequence is active clears every phase latch,
forces the machine state and the protocol state to idle, sends `M112`
followed by zero-duty commands for both fans, clears `operationRunning` and
persists the snapshot; abort while no sequence is active changes nothing (in
particular a non-idle machine state stays as it is); and abort is idempotent. -/
theorem c3_abort_contract (s : Sys) :
    (s.operationRunning = true →
      (abortOperation s).machineState = MachineState.idle ∧
      (abortOperation s).marlin.marlinState = MState.idle ∧
      (abortOperation s).started1 = false ∧ (abortOperation s).started2 = false ∧
      (abortOperation s).started3 = false ∧ (abortOperation s).started4 = false ∧
      (abortOperation s).started5 = false ∧ (abortOperation s).started6 = false ∧
      (abortOperation s).started7 = false ∧ (abortOperation s).started8 = false ∧
      (abortOperation s).started9 = false ∧
      (abortOperation s).operationRunning = false ∧
      (abortOperation s).saves = s.saves + 1 ∧
      (s.marlin.connected = true →
        (abortOperation s).marlin.sent =
          s.marlin.sent ++ [GLine.m112, GLine.m106 0 0, GLine.m106 1 0])) ∧
    (s.operationRunning = false → abortOperation s = s) ∧
    abortOperation (abortOperation s) = abortOperation s := by
  have hnoop : ∀ t : Sys, t.operationRunning = false → abortOperation t = t := by
    intro t ht
    simp [abortOperation, ht]
  by_cases h : s.operationRunning = true
  · have hop : (abortOperation s).operationRunning = false := by
      simp [abortOperation, h, resetAllPhases_eq, saveState]
    refine ⟨fun _ => ?_, fun hf => absurd h (by simp [hf]), hnoop _ hop⟩
    refine ⟨?_, ?_, ?_, ?_, ?_, ?_, ?_, ?_, ?_, ?_, ?_, ?_, ?_, ?_⟩ <;>
      first
        | (intro hc
           simp [abortOperation, h, resetAllPhases_eq, saveState, sendGCode,
                 setFanSpeed, setState, hc])
        | simp [abortOperation, h, resetAllPhases_eq, saveState, sendGCode,
                setFanSpeed, setState]
  · have hf : s.operationRunning = false := by simpa using h
    exact ⟨fun ht => absurd ht h, fun _ => hnoop s hf,
           by rw [hnoop s hf, hnoop s hf]⟩

/-- C3 amended witness: an active abort on the concrete mid-sequence state
lands in machine state idle and protocol state idle with the latch cleared. -/
theorem c3_witness :
    (abortOperation sysC3run).machineState = MachineState.idle ∧
    (abortOperation sysC3run).marlin.marlinState = MState.idle ∧
    (abortOperation sysC3run).started3 = false := by
  have hrun := (c3_abort_contract sysC3run).1 rfl
  exact ⟨hrun.1, hrun.2.1, hrun.2.2.2.2.1⟩

/-- The machine state naming dispense phase `k` (0-indexed: phase `k+1` of
the spec's table). -/
def phaseOf : Fin 9 → MachineState
  | ⟨0, _⟩ => .phase1_x_homing
  | ⟨1, _⟩ => .phase2_x_to_start
  | ⟨2, _⟩ => .phase3_tab_lifting
  | ⟨3, _⟩ => .phase4_lid_peeling
  | ⟨4, _⟩ => .phase5_x_rehoming
  | ⟨5, _⟩ => .phase6_z_lift_to_eject
  | ⟨6, _⟩ => .phase7_x_eject
  | ⟨7, _⟩ => .phase8_x_rehoming_final
  | ⟨8, _⟩ => .phase9_z_next_can
  | ⟨n + 9, h⟩ => absurd h (by omega)

/-- The `started` latch of dispense phase `k`. -/
def startedOf (k : Fin 9) (s : Sys) : Bool :=
  match k with
  | ⟨0, _⟩ => s.started1
  | ⟨1, _⟩ => s.started2
  | ⟨2, _⟩ => s.started3
  | ⟨3, _⟩ => s.started4
  | ⟨4, _⟩ => s.started5
  | ⟨5, _⟩ => s.started6
  | ⟨6, _⟩ => s.started7
  | ⟨7, _⟩ => s.started8
  | ⟨8, _⟩ => s.started9
  | ⟨n + 9, h⟩ => absurd h (by omega)

/-- The completion predicate of phase `k` from the spec's table: the protocol
state it waits for (phases 1, 5, 8: `xHomed`; 2, 3, 4, 7: `moveCompleted`;
6, 9: `idle`). -/
def predOf : Fin 9 → MState
  | ⟨0, _⟩ => .xHomed
  | ⟨1, _⟩ => .moveCompleted
  | ⟨2, _⟩ => .moveCompleted
  | ⟨3, _⟩ => .moveCompleted
  | ⟨4, _⟩ => .xHomed
  | ⟨5, _⟩ => .idle
  | ⟨6, _⟩ => .moveCompleted
  | ⟨7, _⟩ => .xHomed
  | ⟨8, _⟩ => .idle
  | ⟨n + 9, h⟩ => absurd h (by omega)

/-- The successor of phase `k` in the strict linear order: the next phase for
1..8 and `idle` after phase 9. -/
def nextOf : Fin 9 → MachineState
  | ⟨0, _⟩ => .phase2_x_to_start
  | ⟨1, _⟩ => .phase3_tab_lifting
  | ⟨2, _⟩ => .phase4_lid_peeling
  | ⟨3, _⟩ => .phase5_x_rehoming
  | ⟨4, _⟩ => .phase6_z_lift_to_eject
  | ⟨5, _⟩ => .phase7_x_eject
  | ⟨6, _⟩ => .phase8_x_rehoming_final
  | ⟨7, _⟩ => .phase9_z_next_can
  | ⟨8, _⟩ => .idle
  | ⟨n + 9, h⟩ => absurd h (by omega)

/-- Clear the `started` latch of phase `k`. -/
def clearStarted (k : Fin 9) (s : Sys) : Sys :=
  match k with
  | ⟨0, _⟩ => { s with started1 := false }
  | ⟨1, _⟩ => { s with started2 := false }
  | ⟨2, _⟩ => { s with started3 := false }
  | ⟨3, _⟩ => { s with started4 := false }
  | ⟨4, _⟩ => { s with started5 := false }
  | ⟨5, _⟩ => { s with started6 := false }
  | ⟨6, _⟩ => { s with started7 := false }
  | ⟨7, _⟩ => { s with started8 := false }
  | ⟨8, _⟩ => { s with started9 := false }
  | ⟨n + 9, h⟩ => absurd h (by omega)

/-- One event of a sequencer run: a control-loop polling pass, or a serial
line consumed by the reader and handed to `handleResponse`. -/
inductive RunStep where
  | pass
  | line (l : List Char)

/-- Apply one run event to the system state. -/
def applyStep (s : Sys) (st : RunStep) : Sys :=
  match st with
  | .pass => dispenseStateMachine s
  | .line l => { s with marlin := handleResponse s.marlin l }

/-- Run a list of events. -/
def runSteps (s : Sys) (steps : List RunStep) : Sys :=
  steps.foldl applyStep s

/-- The machine states visited along a run (including the initial one). -/
def traceStates (s : Sys) (steps : List RunStep) : List MachineState :=
  (List.scanl applyStep s steps).map fun t => t.machineState

/-- Collapse consecutive duplicates, leaving the order of first visits. -/
def collapseAdj : List MachineState → List MachineState
  | [] => []
  | [a] => [a]
  | a :: b :: t =>
      if a = b then collapseAdj (b :: t) else a :: collapseAdj (b :: t)

/-- An idle ready system with two cans loaded, about to dispense. -/
def sysStart : Sys :=
  { machineState := .idle, marlin := mcIdle,
    started1 := false, started2 := false, started3 := false, started4 := false,
    started5 := false, started6 := false, started7 := false, started8 := false,
    started9 := false, cansLoaded := 2, operationRunning := false,
    feedGap := 8, feedTime := 0, scheduleMode := .INTERVAL_MODE,
    startupSequenceComplete := true, saves := 0 }

/-- A run schedule in which every phase's completion predicate is satisfied
exactly once: the serial acknowledgments each phase's commands need, with a
polling pass after each completion and one for each phase entry. -/
def c2Steps : List RunStep :=
  [.line okL, .pass, .pass, .line okL, .line okL, .pass, .pass, .line okL,
   .line okL, .pass, .pass, .line okL, .line okL, .pass, .pass, .line okL,
   .pass, .pass, .line okL, .line okL, .pass, .pass, .line okL, .line okL,
   .pass, .pass, .line okL, .pass, .pass, .line okL, .line okL, .pass]

/-- C2: in every polling pass on phase `k` whose entry has fired, the
sequencer advances exactly when the phase's table predicate holds on the
protocol state, and then it moves to the immediate successor phase (no skip),
clears the latch and persists — phase 9 additionally decrementing
`cansLoaded` and returning to idle; when the predicate fails the pass changes
nothing.  Moreover the concrete run `c2Steps`, satisfying each predicate
exactly once, visits phases 1 through 9 strictly in order and ends idle with
one can consumed. -/
theorem c2_sequencer_strict_order (k : Fin 9) (s : Sys)
    (h1 : s.machineState = phaseOf k) (h2 : startedOf k s = true) :
    (s.marlin.marlinState = predOf k →
      dispenseStateMachine s =
        saveState (clearStarted k
          { s with machineState := nextOf k,
                   cansLoaded :=
                     if k.val = 8 then s.cansLoaded - 1 else s.cansLoaded })) ∧
    (s.marlin.marlinState ≠ predOf k → dispenseStateMachine s = s) ∧
    collapseAdj (traceStates (dispenseFoodStart sysStart) c2Steps) =
      [.phase1_x_homing, .phase2_x_to_start, .phase3_tab_lifting,
       .phase4_lid_peeling, .phase5_x_rehoming, .phase6_z_lift_to_eject,
       .phase7_x_eject, .phase8_x_rehoming_final, .phase9_z_next_can, .idle] ∧
    (runSteps (dispenseFoodStart sysStart) c2Steps).cansLoaded =
      sysStart.cansLoaded - 1 := by
  refine ⟨?_, ?_, by decide, by decide⟩
  · intro h3
    fin_cases k <;>
      simp_all [dispenseStateMachine, phaseOf, startedOf, predOf, nextOf,
        clearStarted, saveState, phase1_x_homing_state, phase2_x_to_start_state,
        phase3_tab_lifting_state, phase4_lid_peeling_state,
        phase5_x_rehoming_state, phase6_z_lift_to_eject_state,
        phase7_x_eject_state, phase8_x_rehoming_final_state,
        phase9_z_next_can_state]
  · intro h3
    fin_cases k <;>
      simp_all [dispenseStateMachine, phaseOf, startedOf, predOf,
        phase1_x_homing_state, phase2_x_to_start_state,
        phase3_tab_lifting_state, phase4_lid_peeling_state,
        phase5_x_rehoming_state, phase6_z_lift_to_eject_state,
        phase7_x_eject_state, phase8_x_rehoming_final_state,
        phase9_z_next_can_state]

/-- C2 witness: the theorem's advancing branch evaluated at phase 1 on a
concrete state whose protocol state is `xHomed`. -/
theorem c2_witness :
    dispenseStateMachine
        { sysStart with machineState := .phase1_x_homing, started1 := true,
                        operationRunning := true,
                        marlin := { mcIdle with marlinState := .xHomed } } =
      saveState (clearStarted 0
        { sysStart with machineState := nextOf 0, started1 := true,
                        operationRunning := true,
                        marlin := { mcIdle with marlinState := .xHomed } }) := by
  have h := (c2_sequencer_strict_order 0
      { sysStart with machineState := .phase1_x_homing, started1 := true,
                      operationRunning := true,
                      marlin := { mcIdle with marlinState := .xHomed } }
      rfl rfl).1 rfl
  simpa using h

/-- C9 amended witness: the non-atomic branch of the theorem evaluated on the
concrete line `X:1.5 Z:abc`. -/
theorem c9_witness :
    (handleResponse mcC9 lineC9).xPos = 1 * ((1 : ℚ) + 5 / 10 ^ 1) ∧
    (handleResponse mcC9 lineC9).zPos = mcC9.zPos := by
  have h := ((c9_position_update_cases mcC9 lineC9 (by decide)).2.2.2.2 6
      (by decide)).2 (1 * ((1 : ℚ) + 5 / 10 ^ 1)) rfl |>.1 rfl
  exact h

/-- The controller state established by the constructor: port opened, reader
started, `G90` sent, protocol state set to idle, with `burnExtraOK` at its
in-class initializer `false`. -/
def mcInit0 : MC :=
  { marlinState := .idle, xPos := 0, zPos := 0, burnExtraOK := false,
    connected := true, sent := [GLine.g90] }

/-- The controller states reachable through the operations the program
performs on its `MarlinController`: the constructor state, any received line
(`handleResponse` runs on every serial line), the motion and fan commands,
the two `setState` calls the program makes (`moveStarted` in the phase
entries, `idle` in `abortOperation`), disconnection, and snapshot restore
(`loadStateFromJSON` calls `setState` with a persisted — hence previously
reached — protocol state and overwrites the two parsed positions). -/
inductive ReachableMC : MC → Prop where
  | init : ReachableMC mcInit0
  | handle (mc : MC) (l : List Char) :
      ReachableMC mc → ReachableMC (handleResponse mc l)
  | homeXr (mc : MC) : ReachableMC mc → ReachableMC (homeX mc)
  | homeZr (mc : MC) : ReachableMC mc → ReachableMC (homeZ mc)
  | moveXr (mc : MC) (p f : ℚ) : ReachableMC mc → ReachableMC (moveXTo mc p f)
  | moveZr (mc : MC) (p : ℚ) : ReachableMC mc → ReachableMC (moveZTo mc p)
  | fanR (mc : MC) (fanNumber speedPercent : ℤ) :
      ReachableMC mc → ReachableMC (setFanSpeed mc fanNumber speedPercent)
  | setMoveStartedR (mc : MC) :
      ReachableMC mc → ReachableMC (setState mc .moveStarted)
  | setIdleR (mc : MC) : ReachableMC mc → ReachableMC (setState mc .idle)
  | disconnectR (mc : MC) : ReachableMC mc → ReachableMC (disconnectOp mc)
  | loadR (saved mc : MC) (x z : ℚ) : ReachableMC saved → ReachableMC mc →
      ReachableMC { setState mc saved.marlinState with xPos := x, zPos := z }

/-- `handleResponse` preserves the cleared quirk flag and, given the flag is
clear, never enters `zMoveWaitForComplete2`. -/
theorem handleResponse_keeps (mc : MC) (l : List Char)
    (hb : mc.burnExtraOK = false)
    (h2 : mc.marlinState ≠ MState.zMoveWaitForComplete2) :
    (handleResponse mc l).burnExtraOK = false ∧
    (handleResponse mc l).marlinState ≠ MState.zMoveWaitForComplete2 := by
  by_cases hx : startsWithL xColon l
  · constructor <;> simp [handleResponse, hx, hb, h2]
  · rcases mc with ⟨st, x, z, burn, conn, sentL⟩
    simp only [MC.burnExtraOK] at hb
    subst hb
    simp only [MC.marlinState] at h2 ⊢
    cases st <;> by_cases hok : l = okL <;>
      simp_all [handleResponse, sendGCode] <;>
      split_ifs <;> simp_all

/-- C10: in every reachable controller state the quirk flag `burnExtraOK` is
false — it starts false and no program operation ever sets it — hence
`zMoveWaitForComplete2` is never entered and from `zMoveWaitForComplete1`
every `ok` goes directly to idle. -/
theorem c10_quirk_flag_never_set (mc : MC) (h : ReachableMC mc) :
    mc.burnExtraOK = false ∧
    mc.marlinState ≠ MState.zMoveWaitForComplete2 ∧
    (mc.marlinState = MState.zMoveWaitForComplete1 →
      (handleResponse mc okL).marlinState = MState.idle) := by
  have key : mc.burnExtraOK = false ∧
      mc.marlinState ≠ MState.zMoveWaitForComplete2 := by
    induction h with
    | init => exact ⟨rfl, by decide⟩
    | handle mc l hr ih => exact handleResponse_keeps mc l ih.1 ih.2
    | homeXr mc hr ih =>
        by_cases hc : mc.connected <;> simp [homeX, sendGCode, hc, ih.1, ih.2]
    | homeZr mc hr ih =>
        by_cases hc : mc.connected <;> simp [homeZ, sendGCode, hc, ih.1, ih.2]
    | moveXr mc p f hr ih =>
        by_cases hc : mc.connected <;> simp [moveXTo, sendGCode, hc, ih.1, ih.2]
    | moveZr mc p hr ih =>
        by_cases hc : mc.connected <;> simp [moveZTo, sendGCode, hc, ih.1, ih.2]
    | fanR mc fanNumber speedPercent hr ih =>
        simp [setFanSpeed, sendGCode, ih.1, ih.2]
        split_ifs <;> simp [ih.1, ih.2]
    | setMoveStartedR mc hr ih => simp [setState, ih.1]
    | setIdleR mc hr ih => simp [setState, ih.1]
    | disconnectR mc hr ih => simp [disconnectOp, ih.1]
    | loadR saved mc x z hs hm ihs ihm =>
        exact ⟨ihm.1, by simpa [setState] using ihs.2⟩
  refine ⟨key.1, key.2, fun h1 => ?_⟩
  rcases mc with ⟨st, x, z, burn, conn, sentL⟩
  simp only [MC.marlinState] at h1
  subst h1
  simp only [MC.burnExtraOK] at key
  simp [handleResponse, startsWithL_xColon_okL, key.1]

/-- C10 witness: the theorem evaluated on the concrete reachable state
obtained by homing Z from the constructor state and consuming its `ok`. -/
theorem c10_witness :
    (handleResponse (homeZ mcInit0) okL).burnExtraOK = false ∧
    (handleResponse (homeZ mcInit0) okL).marlinState ≠
      MState.zMoveWaitForComplete2 := by
  have h := c10_quirk_flag_never_set (handleResponse (homeZ mcInit0) okL)
    (ReachableMC.handle (homeZ mcInit0) okL (ReachableMC.homeZr mcInit0 ReachableMC.init))
  exact ⟨h.1, h.2.1⟩
